import Mathlib

/-!
Verification of the mood-analysis engine (`app/mood_analyzer.py`).

The Python code is shallowly embedded as executable Lean definitions:

* An observation dictionary becomes the structure `Obs`.  Its ISO
  timestamp (always parsed to an absolute instant before use) is
  modelled as an integer number of seconds; the code's hour comparison
  `abs((t1 - t2).total_seconds() / 3600) <= 4` is rendered exactly as
  `natAbs (t1 - t2) ≤ 4 * 3600`.
* `_calculate_distance` (haversine over floats) is kept abstract: every
  operation that the code routes through it takes a distance function
  `dist` as a parameter, and results about clustering / area lookup are
  proved for every such function.  The only fact about the haversine the
  proofs ever assume is `dist p p = 0`, which holds exactly for it.
* The event-confidence expression `int(min(s/m*100 + 20, 100))` is
  rendered in exact integer arithmetic (`Nat` floor division), which
  agrees with the float evaluation everywhere on its reachable domain
  (`m ∈ {4,5,6}`, `s ∈ 1..m`).  The mood-percentage expression
  `int((positive + neutral/2)/total*100)` does NOT everywhere agree
  with exact arithmetic, so it is modelled operation by operation with
  an exact model of IEEE-754 double rounding (`rndAt`: round to nearest,
  53 significant bits, ties to even), faithful for every reachable
  magnitude (all intermediate values lie far from the subnormal and
  ≥ 2^53 regimes, and counts below 2^53 convert to double exactly).
* `str.lower` is kept abstract as a parameter `lower`; it is applied
  only to non-empty member texts, exactly as in `detect_events`.
-/

namespace MoodMap

set_option maxRecDepth 40000

/-- One mood observation, as the dictionaries handed to `MoodAnalyzer`.
An absent / `None` text is modelled by the empty string (both are falsy
for the `m.get('text')` check). -/
structure Obs where
  id : Nat
  emoji : String
  text : String
  latitude : ℚ
  longitude : ℚ
  timestamp : ℤ
  user_id : Nat
deriving DecidableEq, Repr

/-- Abstract stand-in for `_calculate_distance` (haversine):
latitude₁, longitude₁, latitude₂, longitude₂ ↦ kilometres. -/
abbrev Dist := ℚ → ℚ → ℚ → ℚ → ℚ

def CLUSTER_RADIUS_KM : ℚ := 1

def TIME_WINDOW_HOURS : ℕ := 4

def MIN_CLUSTER_SIZE : ℕ := 5

def POSITIVE_EMOJIS : List String := ["😊", "😎", "🥰"]

def NEGATIVE_EMOJIS : List String := ["😢", "😡", "😷"]

def NEUTRAL_EMOJIS : List String := ["😐", "🤔", "😴"]

def EVENT_KEYWORDS : List (String × List String) :=
  [("concert", ["концерт", "музыка", "группа", "шоу", "выступление"]),
   ("sports", ["игра", "матч", "спорт", "команда", "победа", "проигрыш"]),
   ("traffic", ["пробка", "затор", "авария", "дорога", "машина"]),
   ("weather", ["дождь", "снег", "жара", "холод", "погода", "гроза"]),
   ("food", ["ресторан", "еда", "покушать", "ужин", "обед"]),
   ("party", ["вечеринка", "праздник", "день рождения", "юбилей"])]

/-- Python's `keyword in text` substring test. -/
def containsSubstr (needle haystack : String) : Bool :=
  haystack.toList.tails.any (fun t => needle.toList.isPrefixOf t)

/-- The scaling exponent for rounding `n / d` to 53 significant bits:
the least `k` with `n * 2^k / d ≥ 2^52`.  Structural recursion on a
fuel bound of 4096, which covers every `n ≥ 1, d ≤ 2^4040` — far beyond
any reachable count. -/
def findScale (n d : ℕ) : ℕ → ℕ → ℕ
  | 0, k => k
  | fuel + 1, k => if d * 2 ^ 52 ≤ n * 2 ^ k then k else findScale n d fuel (k + 1)

/-- `n / d` rounded to the nearest IEEE-754 double (53 significant
bits, ties to even), returned as `(m, k)` meaning `m / 2^k`.  Exact for
every positive quotient below `2^53` (the whole reachable range here);
`0/d` is the exact double 0. -/
def rndAt (n d : ℕ) : ℕ × ℕ :=
  if n = 0 then (0, 0)
  else
    let k := findScale n d 4096 0
    let q := n * 2 ^ k / d
    let r := n * 2 ^ k % d
    (if 2 * r < d then q else if d < 2 * r then q + 1 else q + q % 2, k)

/-- `_calculate_mood_percentage`.  The expression
`int((positive + neutral / 2) / total * 100)` is evaluated in IEEE-754
double precision, modelled exactly: `neutral / 2` rounds `U/2`, the
addition rounds the exact sum, the division rounds the exact quotient,
the multiplication rounds the exact product, and `int` truncates
(everything is nonnegative, so truncation is floor). -/
def calculate_mood_percentage (moods : List Obs) : ℕ :=
  if moods.isEmpty then 50
  else
    let positive := (moods.filter (fun m => POSITIVE_EMOJIS.contains m.emoji)).length
    let negative := (moods.filter (fun m => NEGATIVE_EMOJIS.contains m.emoji)).length
    let neutral := (moods.filter (fun m => NEUTRAL_EMOJIS.contains m.emoji)).length
    let total := positive + negative + neutral
    if total = 0 then 50
    else
      let half := rndAt neutral 2
      let sum := rndAt (positive * 2 ^ half.2 + half.1) (2 ^ half.2)
      let quot := rndAt sum.1 (2 ^ sum.2 * total)
      let prod := rndAt (quot.1 * 100) (2 ^ quot.2)
      prod.1 / 2 ^ prod.2

/-- The first-seen-ordered distinct emojis of a list (the key order of a
`collections.Counter` built from it). -/
def uniqueEmojis : List String → List String → List String
  | [], _ => []
  | e :: rest, seen =>
    if seen.contains e then uniqueEmojis rest seen
    else e :: uniqueEmojis rest (e :: seen)

/-- `Counter(...).most_common(1)[0][0]`: the most frequent emoji, ties
resolved in favour of the first one encountered.  The `"😐"` default is
only reachable on an empty list (the code guards against that). -/
def dominantEmoji (emojis : List String) : String :=
  match uniqueEmojis emojis [] with
  | [] => "😐"
  | u :: us => us.foldl (fun best e => if emojis.count best < emojis.count e then e else best) u

structure Cluster where
  center : ℚ × ℚ
  moods : List Obs
  dominant_emoji : String
  mood_percentage : ℕ
deriving Repr

/-- The cluster dictionary built from a member list in `cluster_moods`. -/
def mkCluster (members : List Obs) : Cluster :=
  { center := ((members.map (·.latitude)).sum / (members.length : ℚ),
               (members.map (·.longitude)).sum / (members.length : ℚ)),
    moods := members,
    dominant_emoji := dominantEmoji (members.map (·.emoji)),
    mood_percentage := calculate_mood_percentage members }

/-- The inner-loop admission test of `cluster_moods`:
`time_diff <= TIME_WINDOW_HOURS and distance <= CLUSTER_RADIUS_KM`,
with the hour difference expressed in seconds. -/
def withinCluster (dist : Dist) (seed other : Obs) : Bool :=
  decide ((seed.timestamp - other.timestamp).natAbs ≤ TIME_WINDOW_HOURS * 3600) &&
  decide (dist seed.latitude seed.longitude other.latitude other.longitude ≤ CLUSTER_RADIUS_KM)

/-- Stable insertion (descending timestamp, later input after equal
keys), mirroring `sorted(..., reverse=True)`'s stability. -/
def insertByTimeDesc : List Obs → Obs → List Obs
  | [], m => [m]
  | x :: xs, m =>
    if m.timestamp ≤ x.timestamp then x :: insertByTimeDesc xs m
    else m :: x :: xs

def sortByTimeDesc (moods : List Obs) : List Obs :=
  moods.foldl insertByTimeDesc []

/-- The inner scan of `cluster_moods`: collect every not-yet-processed
observation admitted by `withinCluster` against the seed, threading the
`processed_ids` set. -/
def buildMembers (dist : Dist) (seed : Obs) : List Obs → List ℕ → List Obs × List ℕ
  | [], proc => ([], proc)
  | o :: rest, proc =>
    if o.id ∈ proc then buildMembers dist seed rest proc
    else if withinCluster dist seed o then
      let r := buildMembers dist seed rest (o.id :: proc)
      (o :: r.1, r.2)
    else buildMembers dist seed rest proc

/-- The outer loop of `cluster_moods`: each unprocessed observation
seeds a candidate cluster; candidates below `MIN_CLUSTER_SIZE` are
dropped but their members stay marked as processed. -/
def clusterLoop (dist : Dist) (all : List Obs) : List Obs → List ℕ → List Cluster
  | [], _ => []
  | mood :: rest, proc =>
    if mood.id ∈ proc then clusterLoop dist all rest proc
    else
      let r := buildMembers dist mood all (mood.id :: proc)
      if MIN_CLUSTER_SIZE ≤ (mood :: r.1).length then
        mkCluster (mood :: r.1) :: clusterLoop dist all rest r.2
      else clusterLoop dist all rest r.2

/-- `cluster_moods`. -/
def cluster_moods (dist : Dist) (moods : List Obs) : List Cluster :=
  clusterLoop dist (sortByTimeDesc moods) (sortByTimeDesc moods) []

/-- Per-category matched keywords:
`found_keywords` in `_detect_event_type`. -/
def foundFor (text : String) : List (String × List String) :=
  EVENT_KEYWORDS.map (fun p => (p.1, p.2.filter (fun k => containsSubstr k text)))

/-- `max(event_scores, key=event_scores.get)` paired with its keyword
list: the first entry with the maximal match count wins. -/
def pickBest : List (String × List String) → String × List String
  | [] => ("unknown", [])
  | h :: t => t.foldl (fun best p => if best.2.length < p.2.length then p else best) h

/-- `_detect_event_type`.  The float confidence
`int(min(best_score / max_score * 100 + 20, 100))` is written as the
equal integer expression `min (best_score * 100 / max_score + 20) 100`. -/
def detect_event_type (text : String) : String × List String × ℕ :=
  if text = "" then ("unknown", [], 0)
  else
    let found := foundFor text
    if found.all (fun p => p.2.isEmpty) then ("unknown", [], 0)
    else
      let best := pickBest found
      let maxScore := ((EVENT_KEYWORDS.lookup best.1).getD []).length
      (best.1, best.2, min (best.2.length * 100 / maxScore + 20) 100)

structure Event where
  location : ℚ × ℚ
  type : String
  confidence : ℕ
  dominant_emoji : String
  mood_percentage : ℕ
  moods_count : ℕ
  keywords : List String
deriving Repr

/-- The concatenated lowercased member text of a cluster
(`' '.join(m['text'].lower() for m in cluster['moods'] if m.get('text'))`). -/
def all_text (lower : String → String) (c : Cluster) : String :=
  String.intercalate " " ((c.moods.filter (fun m => m.text != "")).map (fun m => lower m.text))

/-- The event dictionary assembled in `detect_events`. -/
def mkEvent (c : Cluster) (r : String × List String × ℕ) : Event :=
  { location := c.center, type := r.1, confidence := r.2.2,
    dominant_emoji := c.dominant_emoji, mood_percentage := c.mood_percentage,
    moods_count := c.moods.length, keywords := r.2.1 }

/-- The per-cluster body of `detect_events`' loop: emit the event only
when the classification confidence reaches 30. -/
def eventsOfCluster (lower : String → String) (c : Cluster) : List Event :=
  let r := detect_event_type (all_text lower c)
  if 30 ≤ r.2.2 then [mkEvent c r] else []

/-- `detect_events`. -/
def detect_events (lower : String → String) (dist : Dist) (moods : List Obs) : List Event :=
  (cluster_moods dist moods).flatMap (eventsOfCluster lower)

structure AreaMood where
  dominant_emoji : String
  mood_percentage : ℕ
  moods_count : ℕ
deriving DecidableEq, Repr

/-- `get_area_mood`. -/
def get_area_mood (dist : Dist) (moods : List Obs) (lat lng radius : ℚ) : AreaMood :=
  let area_moods := moods.filter (fun m => decide (dist lat lng m.latitude m.longitude ≤ radius))
  if area_moods.isEmpty then
    { dominant_emoji := "😐", mood_percentage := 50, moods_count := 0 }
  else
    { dominant_emoji := dominantEmoji (area_moods.map (·.emoji)),
      mood_percentage := calculate_mood_percentage area_moods,
      moods_count := area_moods.length }

structure TrendReport where
  time_periods : List (ℤ × ℤ)
  mood_percentages : List ℕ
  emoji_counts : List (String × ℕ)
  trend_direction : String
deriving DecidableEq, Repr

/-- Insertion-ordered emoji histogram update
(`emoji_counts[emoji] = emoji_counts.get(emoji, 0) + 1`). -/
def addCount : List (String × ℕ) → String → List (String × ℕ)
  | [], e => [(e, 1)]
  | (k, v) :: rest, e =>
    if k = e then (k, v + 1) :: rest else (k, v) :: addCount rest e

/-- The 6 bucket bounds `(period_start, period_end)` of
`get_mood_trends`, in seconds: bucket `i` is
`[now - (i+1)*period_hours, now - i*period_hours]`, and the bucket width
`hours / 6` hours is exactly `hours * 600` seconds. -/
def trendPeriods (now hours : ℤ) : List (ℤ × ℤ) :=
  (List.range 6).map
    (fun i => (now - ((i : ℤ) + 1) * (hours * 600), now - (i : ℤ) * (hours * 600)))

/-- The per-bucket body of `get_mood_trends`' loop: filter the
observations into the bucket (bounds inclusive) and take the shared
percentage, with 0 for an empty bucket. -/
def periodPercentage (moods : List Obs) (p : ℤ × ℤ) : ℕ :=
  let period_moods := moods.filter
    (fun m => decide (p.1 ≤ m.timestamp) && decide (m.timestamp ≤ p.2))
  if period_moods.isEmpty then 0 else calculate_mood_percentage period_moods

/-- `get_mood_trends`.  `now` is the `datetime.utcnow()` reading in
seconds; a period label `(start, end)` stands for the code's formatted
interval string. -/
def get_mood_trends (moods : List Obs) (now : ℤ) (hours : ℤ) : TrendReport :=
  { time_periods := trendPeriods now hours,
    mood_percentages := (trendPeriods now hours).map (periodPercentage moods),
    emoji_counts := moods.foldl (fun c m => addCount c m.emoji) [],
    trend_direction :=
      match (trendPeriods now hours).map (periodPercentage moods) with
      | p0 :: p1 :: _ =>
        if p1 < p0 then "up" else if p0 < p1 then "down" else "stable"
      | _ => "stable" }

/-- Spec-side counts for the shared mood-percentage formula. -/
def posCount (moods : List Obs) : ℕ :=
  moods.countP (fun m => POSITIVE_EMOJIS.contains m.emoji)

def negCount (moods : List Obs) : ℕ :=
  moods.countP (fun m => NEGATIVE_EMOJIS.contains m.emoji)

def neuCount (moods : List Obs) : ℕ :=
  moods.countP (fun m => NEUTRAL_EMOJIS.contains m.emoji)

/-- The IEEE-754 double evaluation of `(P + U/2) / (P+N+U) * 100`,
truncated to an integer — the value the shared mood-percentage
computation produces on taxonomy counts `P`, `N`, `U` when they are not
all zero. -/
def doubleMoodPercentage (P N U : ℕ) : ℕ :=
  let half := rndAt U 2
  let sum := rndAt (P * 2 ^ half.2 + half.1) (2 ^ half.2)
  let quot := rndAt sum.1 (2 ^ sum.2 * (P + N + U))
  let prod := rndAt (quot.1 * 100) (2 ^ quot.2)
  prod.1 / 2 ^ prod.2

/-- The confidence formula exactly as the specification sentence states
it: `min(round(matched / total * 100) + 20, 100)`. -/
def claimedConfidence (matched total : ℕ) : ℤ :=
  min (round ((matched : ℚ) / (total : ℚ) * 100) + 20) 100

/-- The confidence formula the code actually computes, with a floor in
place of the claimed rounding. -/
def flooredConfidence (matched total : ℕ) : ℤ :=
  min (⌊(matched : ℚ) / (total : ℚ) * 100⌋ + 20) 100

/-- Keyword match over all categories: `hasMatch text` is false exactly
when every category scores 0. -/
def hasMatch (text : String) : Bool :=
  EVENT_KEYWORDS.any (fun p => p.2.any (fun k => containsSubstr k text))

/-- Concrete observations for the closed witness computations. -/
def mkRain (i : ℕ) : Obs :=
  { id := i, emoji := "😊", text := "дождь", latitude := 0, longitude := 0,
    timestamp := 0, user_id := 0 }

def fiveObs : List Obs := [mkRain 0, mkRain 1, mkRain 2, mkRain 3, mkRain 4]

def oBlank : Obs :=
  { id := 9, emoji := "😐", text := "", latitude := 0, longitude := 0,
    timestamp := 0, user_id := 0 }

/-- The zero distance function (any two points coincide). -/
def dist0 : Dist := fun _ _ _ _ => 0

/-- The distance function putting every point 10 km away. -/
def dist10 : Dist := fun _ _ _ _ => 10

def cluster0 : Cluster := mkCluster [mkRain 0, mkRain 1, mkRain 2, mkRain 3, mkRain 4]

def mkObs (i : ℕ) (e : String) : Obs :=
  { id := i, emoji := e, text := "", latitude := 0, longitude := 0,
    timestamp := 0, user_id := 0 }

/-- 25 observations: 4 positive and 21 neutral. -/
def obs25 : List Obs :=
  (List.range 4).map (fun i => mkObs i "😊") ++
  (List.range 21).map (fun i => mkObs (4 + i) "😐")

/-! Helper lemmas. -/

lemma natDiv_cast_floor (a b : ℕ) : ((a / b : ℕ) : ℤ) = ⌊(a : ℚ) / (b : ℚ)⌋ := by
  rcases Nat.eq_zero_or_pos b with rfl | hb
  · simp
  · rw [show ((a : ℚ) : ℚ) / (b : ℚ) = ((a : ℤ) : ℚ) / ((b : ℕ) : ℚ) by push_cast; ring,
      Rat.floor_intCast_div_natCast]
    exact Int.natCast_div a b

lemma zip_map_snd {α β : Type} (f : α → β) :
    ∀ (l : List α) (p : α × β), p ∈ l.zip (l.map f) → p.2 = f p.1 := by
  intro l
  induction l with
  | nil => simp
  | cons x xs ih =>
    intro p hp
    rw [List.map_cons, List.zip_cons_cons] at hp
    rcases List.mem_cons.mp hp with rfl | h
    · rfl
    · exact ih p h

lemma buildMembers_within (dist : Dist) (seed : Obs) :
    ∀ (l : List Obs) (proc : List ℕ) (m : Obs), m ∈ (buildMembers dist seed l proc).1 →
      withinCluster dist seed m = true := by
  intro l
  induction l with
  | nil => intro proc m hm; simp [buildMembers] at hm
  | cons o rest ih =>
    intro proc m hm
    rw [buildMembers] at hm
    split at hm
    · exact ih _ _ hm
    · split at hm
      case isTrue hw =>
        simp only at hm
        rcases List.mem_cons.mp hm with rfl | h
        · exact hw
        · exact ih _ _ h
      case isFalse => exact ih _ _ hm

lemma clusterLoop_shape (dist : Dist) (all : List Obs) :
    ∀ (rest : List Obs) (proc : List ℕ) (c : Cluster), c ∈ clusterLoop dist all rest proc →
      ∃ seed others, c = mkCluster (seed :: others) ∧
        (∀ m ∈ others, withinCluster dist seed m = true) ∧
        MIN_CLUSTER_SIZE ≤ (seed :: others).length := by
  intro rest
  induction rest with
  | nil => intro proc c hc; simp [clusterLoop] at hc
  | cons mood rest ih =>
    intro proc c hc
    rw [clusterLoop] at hc
    split at hc
    · exact ih _ _ hc
    · dsimp only at hc
      split at hc
      case isTrue hlen =>
        rcases List.mem_cons.mp hc with rfl | h
        · exact ⟨mood, _, rfl, fun m hm => buildMembers_within dist mood all _ m hm, hlen⟩
        · exact ih _ _ h
      case isFalse => exact ih _ _ hc

lemma lookup_self : ∀ cat ∈ EVENT_KEYWORDS, EVENT_KEYWORDS.lookup cat.1 = some cat.2 := by decide

lemma cat_sizes : ∀ cat ∈ EVENT_KEYWORDS, 4 ≤ cat.2.length ∧ cat.2.length ≤ 6 := by decide

lemma foldl_best_ge_init (t : List (String × List String)) :
    ∀ init : String × List String,
      init.2.length ≤
        (t.foldl (fun best p => if best.2.length < p.2.length then p else best) init).2.length := by
  induction t with
  | nil => intro init; exact le_refl _
  | cons x xs ih =>
    intro init
    rw [List.foldl_cons]
    by_cases h : init.2.length < x.2.length
    · rw [if_pos h]; exact le_trans (le_of_lt h) (ih x)
    · rw [if_neg h]; exact ih init

lemma foldl_best_ge_mem (t : List (String × List String)) :
    ∀ (init p : String × List String), p ∈ t →
      p.2.length ≤
        (t.foldl (fun best p => if best.2.length < p.2.length then p else best) init).2.length := by
  induction t with
  | nil => simp
  | cons x xs ih =>
    intro init p hp
    rw [List.foldl_cons]
    rcases List.mem_cons.mp hp with hpx | h
    · subst hpx
      by_cases hx : init.2.length < p.2.length
      · rw [if_pos hx]; exact foldl_best_ge_init xs p
      · rw [if_neg hx]; exact le_trans (le_of_not_lt hx) (foldl_best_ge_init xs init)
    · exact ih _ p h

lemma foldl_best_mem (t : List (String × List String)) :
    ∀ init : String × List String,
      (t.foldl (fun best p => if best.2.length < p.2.length then p else best) init) ∈ init :: t := by
  induction t with
  | nil => intro init; simp
  | cons x xs ih =>
    intro init
    rw [List.foldl_cons]
    by_cases h : init.2.length < x.2.length
    · rw [if_pos h]
      exact List.mem_cons_of_mem init (ih x)
    · rw [if_neg h]
      rcases List.mem_cons.mp (ih init) with h' | h'
      · rw [h']; exact List.mem_cons_self _ _
      · exact List.mem_cons_of_mem init (List.mem_cons_of_mem x h')

lemma pickBest_mem {l : List (String × List String)} (h : l ≠ []) : pickBest l ∈ l := by
  match l with
  | x :: t => exact foldl_best_mem t x

lemma pickBest_ge {l : List (String × List String)} (p : String × List String) (hp : p ∈ l) :
    p.2.length ≤ (pickBest l).2.length := by
  match l with
  | x :: t =>
    rcases List.mem_cons.mp hp with rfl | h
    · exact foldl_best_ge_init t p
    · exact foldl_best_ge_mem t x p h

lemma hasMatch_iff (text : String) :
    hasMatch text = true ↔ ¬((foundFor text).all (fun p => p.2.isEmpty) = true) := by
  simp only [hasMatch, foundFor, List.all_map, List.any_eq_true, List.all_eq_true,
    Function.comp, List.isEmpty_iff, List.filter_eq_nil_iff]
  push_neg
  constructor
  · rintro ⟨cat, hcat, k, hk, hc⟩
    exact ⟨cat, hcat, k, hk, hc⟩
  · rintro ⟨cat, hcat, k, hk, hc⟩
    exact ⟨cat, hcat, k, hk, hc⟩

lemma no_match_unknown (text : String) (h : hasMatch text = false) :
    detect_event_type text = ("unknown", [], 0) := by
  by_cases ht : text = ""
  · subst ht; rfl
  · have hall : (foundFor text).all (fun p => p.2.isEmpty) = true := by
      by_contra hc
      have hx := (hasMatch_iff text).mpr hc
      rw [h] at hx
      exact Bool.false_ne_true hx
    simp [detect_event_type, ht, hall]

lemma match_structure (text : String) (h : hasMatch text = true) :
    ∃ cat ∈ EVENT_KEYWORDS,
      detect_event_type text =
        (cat.1, cat.2.filter (fun k => containsSubstr k text),
         min ((cat.2.filter (fun k => containsSubstr k text)).length * 100 / cat.2.length + 20)
           100) ∧
      1 ≤ (cat.2.filter (fun k => containsSubstr k text)).length := by
  rcases eq_or_ne text "" with rfl | ht
  · exact absurd h (by decide)
  have hall : ¬((foundFor text).all (fun p => p.2.isEmpty) = true) := (hasMatch_iff text).mp h
  have hne : foundFor text ≠ [] := by simp [foundFor, EVENT_KEYWORDS]
  have hb : pickBest (foundFor text) ∈
      EVENT_KEYWORDS.map (fun p => (p.1, p.2.filter (fun k => containsSubstr k text))) :=
    pickBest_mem hne
  obtain ⟨cat, hcat, hbest⟩ := List.mem_map.mp hb
  have hbest' : pickBest (foundFor text) = (cat.1, cat.2.filter (fun k => containsSubstr k text)) :=
    hbest.symm
  refine ⟨cat, hcat, ?_, ?_⟩
  · rw [detect_event_type, if_neg ht, if_neg hall]
    dsimp only
    rw [hbest', lookup_self cat hcat]
    rfl
  · obtain ⟨p, hp, hpne⟩ : ∃ p ∈ foundFor text, ¬p.2.isEmpty = true := by
      by_contra hc
      push_neg at hc
      exact hall (List.all_eq_true.mpr hc)
    have h1 : 1 ≤ p.2.length :=
      List.length_pos.mpr (by simpa [List.isEmpty_iff] using hpne)
    calc 1 ≤ p.2.length := h1
    _ ≤ (pickBest (foundFor text)).2.length := pickBest_ge p hp
    _ = (cat.2.filter (fun k => containsSubstr k text)).length := by rw [hbest']

lemma conf_ge_36 (text : String) (h : hasMatch text = true) :
    36 ≤ (detect_event_type text).2.2 := by
  obtain ⟨cat, hcat, hdet, hge⟩ := match_structure text h
  rw [hdet]
  obtain ⟨h4, h6⟩ := cat_sizes cat hcat
  have hpos : 0 < cat.2.length := by omega
  have hs100 : 100 ≤ (cat.2.filter (fun k => containsSubstr k text)).length * 100 := by
    calc 100 = 1 * 100 := by norm_num
    _ ≤ (cat.2.filter (fun k => containsSubstr k text)).length * 100 :=
      Nat.mul_le_mul_right 100 hge
  have h16 : 16 ≤ (cat.2.filter (fun k => containsSubstr k text)).length * 100 / cat.2.length := by
    calc 16 = 100 / 6 := by norm_num
    _ ≤ 100 / cat.2.length := Nat.div_le_div_left h6 hpos
    _ ≤ (cat.2.filter (fun k => containsSubstr k text)).length * 100 / cat.2.length :=
      Nat.div_le_div_right hs100
  exact le_min (by omega) (by norm_num)

lemma flatMap_filter_events (lower : String → String) :
    ∀ cs : List Cluster,
      cs.flatMap (eventsOfCluster lower) =
        (cs.filter (fun c => hasMatch (all_text lower c))).map
          (fun c => mkEvent c (detect_event_type (all_text lower c))) := by
  intro cs
  induction cs with
  | nil => rfl
  | cons c cs ih =>
    rw [List.flatMap_cons, List.filter_cons]
    cases hm : hasMatch (all_text lower c) with
    | true =>
      have h30 : 30 ≤ (detect_event_type (all_text lower c)).2.2 :=
        le_trans (by norm_num) (conf_ge_36 _ hm)
      rw [if_pos (by simp), List.map_cons, ← ih]
      rw [eventsOfCluster]
      rw [if_pos h30]
      rfl
    | false =>
      rw [if_neg (by simp)]
      rw [eventsOfCluster]
      rw [no_match_unknown _ hm]
      rw [if_neg (by norm_num), List.nil_append]
      exact ih

lemma cluster0_mem : cluster0 ∈ cluster_moods dist0 fiveObs := by
  have h : cluster_moods dist0 fiveObs = [cluster0] := rfl
  rw [h]
  exact List.mem_cons_self _ _

/-! Claim theorems. -/

/-- C5 (amended): the shared mood-percentage computation returns 50
when the positive/negative/neutral taxonomy counts are all zero (in
particular on the empty list) — observations whose emoji is outside the
three taxonomy sets being excluded from the counts — and otherwise
returns `int()` of the IEEE-754 double evaluation of
`(P + U/2) / (P+N+U) * 100`, which is not always the exact floor the
claim states. -/
theorem mood_percentage_formula (moods : List Obs) :
    calculate_mood_percentage moods =
      if posCount moods + negCount moods + neuCount moods = 0 then 50
      else doubleMoodPercentage (posCount moods) (negCount moods) (neuCount moods) := by
  have hp : (moods.filter (fun m => POSITIVE_EMOJIS.contains m.emoji)).length = posCount moods :=
    (List.countP_eq_length_filter _ _).symm
  have hn : (moods.filter (fun m => NEGATIVE_EMOJIS.contains m.emoji)).length = negCount moods :=
    (List.countP_eq_length_filter _ _).symm
  have hu : (moods.filter (fun m => NEUTRAL_EMOJIS.contains m.emoji)).length = neuCount moods :=
    (List.countP_eq_length_filter _ _).symm
  rw [calculate_mood_percentage]
  by_cases he : moods.isEmpty
  · rw [if_pos he]
    have h0 : moods = [] := List.isEmpty_iff.mp he
    subst h0
    simp [posCount, negCount, neuCount]
  · rw [if_neg he]
    simp only [hp, hn, hu]
    by_cases ht : posCount moods + negCount moods + neuCount moods = 0
    · rw [if_pos ht, if_pos ht]
    · rw [if_neg ht, if_neg ht]
      rfl

/-- C5 counterexample: on 25 observations with P=4, N=0, U=21 the
exact value of `(P + U/2) / (P+N+U) * 100` is exactly 58 (so its floor
is 58), but the double-precision product is 57.99999999999999289…, so
the code's `int(...)` returns 57 — the claim's floor formula is false
of the program. -/
theorem mood_percentage_float_cex :
    calculate_mood_percentage obs25 = 57 ∧
    posCount obs25 = 4 ∧ negCount obs25 = 0 ∧ neuCount obs25 = 21 ∧
    (⌊((4 : ℚ) + (21 : ℚ) / 2) / ((4 : ℚ) + (0 : ℚ) + (21 : ℚ)) * 100⌋ : ℤ) = 58 ∧
    (57 : ℕ) ≠ 58 := by
  refine ⟨by decide, by decide, by decide, by decide, ?_, by decide⟩
  norm_num

/-- C6: every cluster returned by the clustering operation has at least
`MIN_CLUSTER_SIZE` (5) members. -/
theorem cluster_min_size (dist : Dist) (moods : List Obs) :
    ∀ c ∈ cluster_moods dist moods, MIN_CLUSTER_SIZE ≤ c.moods.length := by
  intro c hc
  obtain ⟨s, others, hceq, _, hlen⟩ :=
    clusterLoop_shape dist (sortByTimeDesc moods) (sortByTimeDesc moods) [] c hc
  subst hceq
  exact hlen

/-- C6 witness. -/
theorem cluster_min_size_witness : MIN_CLUSTER_SIZE ≤ cluster0.moods.length :=
  cluster_min_size dist0 fiveObs cluster0 cluster0_mem

/-- C4: every member of a returned cluster is within the time window
(4 h, i.e. 14400 s) and within the cluster radius (1 km, measured by the
distance function the clusterer uses) of the cluster's seed — the first
member of the cluster's member list.  The only assumption on the
distance function is that the distance from a point to itself is 0,
which the haversine formula satisfies. -/
theorem cluster_members_near_seed (dist : Dist) (hd : ∀ la lo, dist la lo la lo = 0)
    (moods : List Obs) :
    ∀ c ∈ cluster_moods dist moods, ∀ seed, c.moods.head? = some seed →
      ∀ m ∈ c.moods,
        (seed.timestamp - m.timestamp).natAbs ≤ TIME_WINDOW_HOURS * 3600 ∧
        dist seed.latitude seed.longitude m.latitude m.longitude ≤ CLUSTER_RADIUS_KM := by
  intro c hc seed hseed m hm
  obtain ⟨s, others, hceq, hw, _⟩ :=
    clusterLoop_shape dist (sortByTimeDesc moods) (sortByTimeDesc moods) [] c hc
  subst hceq
  have hmoods : (mkCluster (s :: others)).moods = s :: others := rfl
  rw [hmoods] at hseed hm
  have hs : seed = s := by
    rw [List.head?_cons] at hseed
    exact (Option.some.inj hseed).symm
  subst hs
  rcases List.mem_cons.mp hm with rfl | hmem
  · constructor
    · simp
    · rw [hd]
      norm_num [CLUSTER_RADIUS_KM]
  · have := hw m hmem
    rw [withinCluster, Bool.and_eq_true, decide_eq_true_iff, decide_eq_true_iff] at this
    exact this

/-- C4 witness. -/
theorem cluster_members_near_seed_witness :
    ((mkRain 0).timestamp - (mkRain 1).timestamp).natAbs ≤ TIME_WINDOW_HOURS * 3600 ∧
    dist0 (mkRain 0).latitude (mkRain 0).longitude (mkRain 1).latitude (mkRain 1).longitude ≤
      CLUSTER_RADIUS_KM :=
  cluster_members_near_seed dist0 (fun _ _ => rfl) fiveObs cluster0 cluster0_mem
    (mkRain 0) rfl (mkRain 1) (by decide)

/-- C8: when no observation lies within the given radius of the center
(in particular on the empty input), the area aggregation returns exactly
the neutral default, and (being a total function) never raises. -/
theorem area_mood_empty_default (dist : Dist) (moods : List Obs) (lat lng radius : ℚ)
    (h : ∀ m ∈ moods, ¬ dist lat lng m.latitude m.longitude ≤ radius) :
    get_area_mood dist moods lat lng radius =
      { dominant_emoji := "😐", mood_percentage := 50, moods_count := 0 } := by
  have hf : moods.filter (fun m => decide (dist lat lng m.latitude m.longitude ≤ radius)) = [] :=
    List.filter_eq_nil_iff.mpr (by intro m hm; simpa using h m hm)
  rw [get_area_mood]
  simp only [hf]
  rfl

/-- C8 witness. -/
theorem area_mood_empty_default_witness :
    get_area_mood dist10 [mkRain 0] 0 0 5 =
      { dominant_emoji := "😐", mood_percentage := 50, moods_count := 0 } :=
  area_mood_empty_default dist10 [mkRain 0] 0 0 5 (by decide)

/-- C2 (amended): clustering, event detection and area aggregation are
deterministic functions of the input snapshot (and of the distance /
lowercasing functions they are parameterised by); the trend computation
is a deterministic function of the snapshot together with the clock
reading `now` that the code takes via `datetime.utcnow()`. -/
theorem components_deterministic (lower : String → String) (dist : Dist) (moods : List Obs)
    (lat lng radius : ℚ) (now hours : ℤ) :
    cluster_moods dist moods = cluster_moods dist moods ∧
    detect_events lower dist moods = detect_events lower dist moods ∧
    get_area_mood dist moods lat lng radius = get_area_mood dist moods lat lng radius ∧
    get_mood_trends moods now hours = get_mood_trends moods now hours :=
  ⟨rfl, rfl, rfl, rfl⟩

/-- C2 counterexample: the trend computation reads the current clock, so
two invocations on the same unmodified snapshot (here at clock readings
0 and 1000000 s) return different outputs — its result is not a function
of the input snapshot alone. -/
theorem trends_clock_cex :
    get_mood_trends [mkRain 0] 0 24 ≠ get_mood_trends [mkRain 0] 1000000 24 := by
  decide

/-- C1 (amended): for every text with at least one keyword match, the
winning type returned by the classifier is one of the keyword-table
categories, the returned keyword list is exactly the winning category's
keywords occurring as substrings of the text, and the confidence equals
`min(floor(matched_count / total_keywords * 100) + 20, 100)` — a floor,
not the rounding the claim states. -/
theorem event_confidence_floor_formula (text : String) (h : hasMatch text = true) :
    (EVENT_KEYWORDS.lookup (detect_event_type text).1).isSome = true ∧
    (detect_event_type text).2.1 =
      ((EVENT_KEYWORDS.lookup (detect_event_type text).1).getD []).filter
        (fun k => containsSubstr k text) ∧
    ((detect_event_type text).2.2 : ℤ) =
      flooredConfidence (detect_event_type text).2.1.length
        ((EVENT_KEYWORDS.lookup (detect_event_type text).1).getD []).length := by
  obtain ⟨cat, hcat, hdet, _⟩ := match_structure text h
  rw [hdet]
  dsimp only
  rw [lookup_self cat hcat]
  refine ⟨rfl, rfl, ?_⟩
  rw [flooredConfidence]
  dsimp only [Option.getD_some]
  rw [Nat.cast_min]
  push_cast
  rw [show ((cat.2.filter (fun k => containsSubstr k text)).length : ℚ) / (cat.2.length : ℚ) * 100
        = (((cat.2.filter (fun k => containsSubstr k text)).length * 100 : ℕ) : ℚ) /
          ((cat.2.length : ℕ) : ℚ) by push_cast; ring,
    ← natDiv_cast_floor]
  push_cast
  ring

/-- C1 witness. -/
theorem event_confidence_floor_formula_witness :
    (EVENT_KEYWORDS.lookup (detect_event_type "дождь").1).isSome = true ∧
    (detect_event_type "дождь").2.1 =
      ((EVENT_KEYWORDS.lookup (detect_event_type "дождь").1).getD []).filter
        (fun k => containsSubstr k "дождь") ∧
    ((detect_event_type "дождь").2.2 : ℤ) =
      flooredConfidence (detect_event_type "дождь").2.1.length
        ((EVENT_KEYWORDS.lookup (detect_event_type "дождь").1).getD []).length :=
  event_confidence_floor_formula "дождь" (by decide)

/-- C1 counterexample: five co-located simultaneous observations whose
text is the single weather keyword "дождь" produce one event whose
confidence is 36 = `int(1/6*100 + 20)`, while the claim's formula
`min(round(1/6*100) + 20, 100)` gives 37. -/
theorem event_confidence_round_cex :
    (detect_events id dist0 fiveObs).map (fun e => (e.type, e.keywords, e.confidence)) =
      [("weather", ["дождь"], 36)] ∧
    ((EVENT_KEYWORDS.lookup "weather").getD []).length = 6 ∧
    claimedConfidence 1 6 = 37 := by
  refine ⟨by decide, by decide, ?_⟩
  rw [claimedConfidence, round_eq]
  norm_num

/-- C7: the event-detection operation never returns an event whose
confidence is below 30, and a cluster none of whose members carries
non-empty text is classified as "unknown" with confidence 0 and an empty
keyword list, and contributes no event to the result. -/
theorem event_confidence_min30_textless (lower : String → String) (dist : Dist)
    (moods : List Obs) :
    (∀ e ∈ detect_events lower dist moods, 30 ≤ e.confidence) ∧
    (∀ c : Cluster, (∀ m ∈ c.moods, m.text = "") →
       detect_event_type (all_text lower c) = ("unknown", [], 0) ∧
       eventsOfCluster lower c = []) := by
  constructor
  · intro e he
    rw [detect_events] at he
    obtain ⟨c, _, hc⟩ := List.mem_flatMap.mp he
    rw [eventsOfCluster] at hc
    split at hc
    case isTrue hge =>
      rw [List.mem_singleton] at hc
      subst hc
      exact hge
    case isFalse => simp at hc
  · intro c hc
    have htext : all_text lower c = "" := by
      rw [all_text]
      have hfil : c.moods.filter (fun m => m.text != "") = [] :=
        List.filter_eq_nil_iff.mpr (by intro m hm; simp [hc m hm])
      rw [hfil]
      rfl
    refine ⟨by rw [htext]; rfl, ?_⟩
    rw [eventsOfCluster, htext]
    rfl

/-- C7 witness. -/
theorem event_confidence_min30_textless_witness :
    detect_event_type (all_text id (mkCluster [oBlank])) = ("unknown", [], 0) ∧
    eventsOfCluster id (mkCluster [oBlank]) = [] :=
  (event_confidence_min30_textless id dist0 []).2 (mkCluster [oBlank]) (by decide)

/-- C10: whenever at least one keyword matches, the classifier's
confidence is at least 36 (every category has between 4 and 6 keywords),
so the ≥30 filter never drops a cluster with a match: the emitted events
are exactly one event per cluster whose concatenated lowercased text has
a keyword match. -/
theorem events_iff_keyword_match (lower : String → String) (dist : Dist) (moods : List Obs) :
    (∀ text, hasMatch text = true → 36 ≤ (detect_event_type text).2.2) ∧
    detect_events lower dist moods =
      ((cluster_moods dist moods).filter (fun c => hasMatch (all_text lower c))).map
        (fun c => mkEvent c (detect_event_type (all_text lower c))) := by
  exact ⟨conf_ge_36, flatMap_filter_events lower (cluster_moods dist moods)⟩

/-- C10 witness. -/
theorem events_iff_keyword_match_witness : 36 ≤ (detect_event_type "дождь").2.2 :=
  (events_iff_keyword_match id dist0 []).1 "дождь" (by decide)

lemma periodPercentage_empty (moods : List Obs) (p : ℤ × ℤ)
    (hp : ∀ m ∈ moods, ¬ (p.1 ≤ m.timestamp ∧ m.timestamp ≤ p.2)) :
    periodPercentage moods p = 0 := by
  rw [periodPercentage]
  have hfil : moods.filter
      (fun m => decide (p.1 ≤ m.timestamp) && decide (m.timestamp ≤ p.2)) = [] :=
    List.filter_eq_nil_iff.mpr (by intro m hm; simpa using hp m hm)
  simp only [hfil]
  rfl

/-- C9: the trend computation always returns exactly 6 period labels
and 6 percentages; a period containing no observation contributes 0
(not 50); and on an empty input all six percentages are 0 and the
direction is "stable". -/
theorem trends_shape (moods : List Obs) (now hours : ℤ) :
    (get_mood_trends moods now hours).time_periods.length = 6 ∧
    (get_mood_trends moods now hours).mood_percentages.length = 6 ∧
    (∀ pr ∈ (get_mood_trends moods now hours).time_periods.zip
        (get_mood_trends moods now hours).mood_percentages,
      (∀ m ∈ moods, ¬ (pr.1.1 ≤ m.timestamp ∧ m.timestamp ≤ pr.1.2)) → pr.2 = 0) ∧
    (moods = [] →
      (get_mood_trends moods now hours).mood_percentages = [0, 0, 0, 0, 0, 0] ∧
      (get_mood_trends moods now hours).trend_direction = "stable") := by
  refine ⟨rfl, rfl, ?_, ?_⟩
  · intro pr hpr hemp
    have h2 := zip_map_snd (periodPercentage moods) (trendPeriods now hours) pr hpr
    rw [h2]
    exact periodPercentage_empty moods pr.1 hemp
  · intro h0
    subst h0
    exact ⟨rfl, rfl⟩

/-- C9 witness. -/
theorem trends_shape_witness :
    (get_mood_trends [] 0 24).time_periods.length = 6 ∧
    ((((-14400 : ℤ), (0 : ℤ)), (0 : ℕ))).2 = 0 ∧
    (get_mood_trends [] 0 24).mood_percentages = [0, 0, 0, 0, 0, 0] :=
  ⟨(trends_shape [] 0 24).1,
   (trends_shape [] 0 24).2.2.1 (((-14400 : ℤ), (0 : ℤ)), (0 : ℕ)) (by decide) (by simp),
   ((trends_shape [] 0 24).2.2.2 rfl).1⟩

/-- C3 (amended): the trend direction is determined solely by the first
two entries of the percentage list — the two most recent buckets — by
strict comparison ("up" / "down" / "stable"); in particular it is
"stable" whenever neither of the two most recent buckets contains an
observation.  (When exactly one of them contains observations the
direction can still be "up" or "down", contrary to the claim's
"fewer than 2 buckets" clause.) -/
theorem trend_direction_two_buckets (moods : List Obs) (now hours : ℤ) :
    (∀ p0 p1 rest, (get_mood_trends moods now hours).mood_percentages = p0 :: p1 :: rest →
      (get_mood_trends moods now hours).trend_direction =
        if p1 < p0 then "up" else if p0 < p1 then "down" else "stable") ∧
    ((∀ m ∈ moods, ¬ (now - hours * 600 ≤ m.timestamp ∧ m.timestamp ≤ now)) →
     (∀ m ∈ moods, ¬ (now - 2 * (hours * 600) ≤ m.timestamp ∧
        m.timestamp ≤ now - hours * 600)) →
     (get_mood_trends moods now hours).trend_direction = "stable") := by
  constructor
  · intro p0 p1 rest hperc
    have hperc' : (trendPeriods now hours).map (periodPercentage moods) = p0 :: p1 :: rest :=
      hperc
    have hdir : (get_mood_trends moods now hours).trend_direction =
        match (trendPeriods now hours).map (periodPercentage moods) with
        | p0 :: p1 :: _ => if p1 < p0 then "up" else if p0 < p1 then "down" else "stable"
        | _ => "stable" := rfl
    rw [hdir, hperc']
  · intro h0 h1
    have hper : trendPeriods now hours =
        (now - ((0 : ℤ) + 1) * (hours * 600), now - (0 : ℤ) * (hours * 600)) ::
        (now - ((1 : ℤ) + 1) * (hours * 600), now - (1 : ℤ) * (hours * 600)) ::
        [(now - ((2 : ℤ) + 1) * (hours * 600), now - (2 : ℤ) * (hours * 600)),
         (now - ((3 : ℤ) + 1) * (hours * 600), now - (3 : ℤ) * (hours * 600)),
         (now - ((4 : ℤ) + 1) * (hours * 600), now - (4 : ℤ) * (hours * 600)),
         (now - ((5 : ℤ) + 1) * (hours * 600), now - (5 : ℤ) * (hours * 600))] := rfl
    have e0 : (now - ((0 : ℤ) + 1) * (hours * 600), now - (0 : ℤ) * (hours * 600)) =
        (now - hours * 600, now) := Prod.ext (by ring) (by ring)
    have e1 : (now - ((1 : ℤ) + 1) * (hours * 600), now - (1 : ℤ) * (hours * 600)) =
        (now - 2 * (hours * 600), now - hours * 600) := Prod.ext (by ring) (by ring)
    have hz0 : periodPercentage moods (now - hours * 600, now) = 0 :=
      periodPercentage_empty moods _ (by intro m hm; simpa using h0 m hm)
    have hz1 : periodPercentage moods (now - 2 * (hours * 600), now - hours * 600) = 0 :=
      periodPercentage_empty moods _ (by intro m hm; simpa using h1 m hm)
    have hdir : (get_mood_trends moods now hours).trend_direction =
        match (trendPeriods now hours).map (periodPercentage moods) with
        | p0 :: p1 :: _ => if p1 < p0 then "up" else if p0 < p1 then "down" else "stable"
        | _ => "stable" := rfl
    rw [hdir, hper, e0, e1, List.map_cons, List.map_cons, hz0, hz1]
    rfl

/-- C3 witness. -/
theorem trend_direction_two_buckets_witness :
    (get_mood_trends [] 0 24).trend_direction = "stable" :=
  (trend_direction_two_buckets [] 0 24).2 (by simp) (by simp)

/-- C3 counterexample: a single observation lying only in the most
recent of the six buckets (so fewer than 2 buckets contain any
observation) still yields trend direction "up", not "stable". -/
theorem trend_direction_one_bucket_cex :
    (get_mood_trends [mkRain 0] 0 24).trend_direction = "up" ∧
    ((get_mood_trends [mkRain 0] 0 24).time_periods.countP
      (fun p => [mkRain 0].any
        (fun m => decide (p.1 ≤ m.timestamp) && decide (m.timestamp ≤ p.2)))) = 1 ∧
    ("up" : String) ≠ "stable" := by
  refine ⟨by decide, by decide, by decide⟩

end MoodMap
